import Mathlib

/-!
# NexusBridge — formal model of the transfer store, signature threshold and
# event-validation logic

A shallow embedding of the Go relayer (`internal/models`, `pkg/types`, the
EVM adapter) and of the Solidity bridge's signature verification, together
with theorems settling the specification claims about them.

Conventions of the embedding:
* Go `(T, error)` returns and SQL statements that may fail become
  `Except RepoError _`; an `.error` result leaves the store unchanged
  (the Go code returns before any mutation, and a failed SQL statement has
  no effect).
* The SQL database of `scripts/migrations/001_initial_schema.sql` is a
  `Store`: a list of transfer rows and a list of signature rows, plus a
  `connOk` flag modelling the possibility that the connection/query layer
  itself fails (sqlx can return an error on any call).
* `big.Int` values are mathematical integers `Int`; nullable `*big.Int`
  pointers are `Option Int`.
* Timestamps (`created_at` / `updated_at`, set from `time.Now()`) are out
  of the model: no claim depends on them.
-/

namespace NexusBridge

/-- `types.TransferStatus` (pkg/types): the seven status constants. -/
inductive TransferStatus where
  | pending
  | confirming
  | signed
  | executing
  | completed
  | failed
  | underReview
deriving DecidableEq, Repr

/-- `types.Transfer` (pkg/types). `amount` and `fee` model the nullable
`*BigInt` pointers; timestamps are omitted (set from the wall clock). -/
structure Transfer where
  id : String
  sourceChain : Nat
  destinationChain : Nat
  token : String
  amount : Option Int
  sender : String
  recipient : String
  status : TransferStatus
  sourceTxHash : String
  destinationTxHash : String
  blockNumber : Nat
  confirmations : Nat
  fee : Option Int
deriving DecidableEq, Repr

/-- A row of the `signatures` table: `(transfer_id, relayer_address,
signature)`.  The raw signature bytes are a list of byte values. -/
structure SignatureRow where
  transferId : String
  relayerAddress : String
  signature : List Nat
deriving DecidableEq, Repr

/-- `types.Signature` (pkg/types), as passed to
`SignatureRepository.Create` (`CreatedAt` omitted: set from the clock). -/
structure SignatureInput where
  relayerAddress : String
  signature : List Nat
deriving DecidableEq, Repr

/-- The durable store: the `transfers` and `signatures` tables plus a flag
for whether the database connection/query layer is working. -/
structure Store where
  transfers : List Transfer
  signatures : List SignatureRow
  connOk : Bool
deriving DecidableEq, Repr

/-- Error outcomes of the repository layer.  The Go code wraps errors as
strings; this classifies them: the validation errors of
`Transfer.Validate` and `SignatureRepository.Create`'s input checks, the
database's unique-key / foreign-key violations, `sql.ErrNoRows` /
zero-rows-affected, and connection or query failure. -/
inductive RepoError where
  | idRequired
  | chainsEqual
  | amountNotPositive
  | tokenRequired
  | senderRequired
  | recipientRequired
  | relayerAddressRequired
  | signatureDataRequired
  | duplicateKey
  | notFound
  | connection
  | fkViolation
deriving DecidableEq, Repr

/-- `Transfer.Validate` (pkg/types): the checks, in source order.  The Go
amount check is `t.Amount == nil || t.Amount.Cmp(big.NewInt(0)) <= 0`. -/
def Transfer.validate (t : Transfer) : Except RepoError Unit :=
  if t.id = "" then .error .idRequired
  else if t.sourceChain = t.destinationChain then .error .chainsEqual
  else if (match t.amount with
           | none => true
           | some a => a ≤ 0) then .error .amountNotPositive
  else if t.token = "" then .error .tokenRequired
  else if t.sender = "" then .error .senderRequired
  else if t.recipient = "" then .error .recipientRequired
  else .ok ()

/-- Row lookup by primary key, as the database evaluates `WHERE id = $1`
on the `transfers` table. -/
def findTransfer (s : Store) (id : String) : Option Transfer :=
  s.transfers.find? (fun t => t.id == id)

/-- The unique-pair probe the `signatures` table's constraint
`uq_signatures_transfer_relayer UNIQUE (transfer_id, relayer_address)`
performs on insert. -/
def hasSignaturePair (s : Store) (transferId relayerAddress : String) : Bool :=
  s.signatures.any (fun row =>
    row.transferId == transferId && row.relayerAddress == relayerAddress)

namespace TransferRepository

/-- `TransferRepository.Create` (internal/models/transfer.go): validates,
then `INSERT INTO transfers ...`.  The insert fails if the connection is
down, or with a unique-key violation when the primary key `id` already
exists (`id VARCHAR(66) PRIMARY KEY` in the schema); the amount/chain
check constraints are already implied by `Transfer.Validate`. -/
def create (s : Store) (t : Transfer) : Except RepoError Store :=
  match t.validate with
  | .error e => .error e
  | .ok () =>
    if !s.connOk then .error .connection
    else if (findTransfer s t.id).isSome then .error .duplicateKey
    else .ok { s with transfers := s.transfers ++ [t] }

/-- `TransferRepository.GetByID` (internal/models/transfer.go):
`SELECT ... WHERE id = $1`; `sql.ErrNoRows` becomes the "transfer not
found" error. -/
def getByID (s : Store) (id : String) : Except RepoError Transfer :=
  if !s.connOk then .error .connection
  else
    match findTransfer s id with
    | none => .error .notFound
    | some t => .ok t

/-- The row update performed by `UPDATE transfers SET status = $1 ...
WHERE id = $3`: every row whose id matches gets the new status. -/
def setStatusRows (l : List Transfer) (id : String) (st : TransferStatus) :
    List Transfer :=
  l.map (fun t => if t.id == id then { t with status := st } else t)

/-- `TransferRepository.UpdateStatus` (internal/models/transfer.go):
`UPDATE transfers SET status = $1, updated_at = $2 WHERE id = $3`, then
an error iff zero rows were affected.  The `WHERE` clause matches on the
id only — the current status is not consulted. -/
def updateStatus (s : Store) (id : String) (st : TransferStatus) :
    Except RepoError Store :=
  if !s.connOk then .error .connection
  else if (findTransfer s id).isNone then .error .notFound
  else .ok { s with transfers := setStatusRows s.transfers id st }

/-- The row update performed by `UPDATE transfers SET
destination_tx_hash = $1 ... WHERE id = $3`. -/
def setHashRows (l : List Transfer) (id : String) (txHash : String) :
    List Transfer :=
  l.map (fun t => if t.id == id then { t with destinationTxHash := txHash } else t)

/-- `TransferRepository.UpdateDestinationTxHash`
(internal/models/transfer.go): same shape as `UpdateStatus`, setting
`destination_tx_hash`. -/
def updateDestinationTxHash (s : Store) (id : String) (txHash : String) :
    Except RepoError Store :=
  if !s.connOk then .error .connection
  else if (findTransfer s id).isNone then .error .notFound
  else .ok { s with transfers := setHashRows s.transfers id txHash }

/-- `TransferRepository.MarkForReview` (internal/models/transfer.go): the
same unconditional `UPDATE ... SET status = $1 WHERE id = $3` with
`types.StatusUnderReview`; the `reason` is only destined for a TODO audit
table. -/
def markForReview (s : Store) (id : String) (_reason : String) :
    Except RepoError Store :=
  if !s.connOk then .error .connection
  else if (findTransfer s id).isNone then .error .notFound
  else .ok { s with transfers := setStatusRows s.transfers id .underReview }

end TransferRepository

namespace SignatureRepository

/-- `SignatureRepository.Create` (internal/models, signature repository):
rejects an empty relayer address or empty signature bytes, then
`INSERT INTO signatures ...` — which fails if the connection is down,
with a foreign-key violation when the transfer does not exist
(`REFERENCES transfers(id)`), and with a unique-key violation when the
`(transfer_id, relayer_address)` pair already has a row.  There is no
`ON CONFLICT DO NOTHING` clause: the duplicate insert surfaces the
database error. -/
def create (s : Store) (transferId : String) (sig : SignatureInput) :
    Except RepoError Store :=
  if sig.relayerAddress = "" then .error .relayerAddressRequired
  else if sig.signature = [] then .error .signatureDataRequired
  else if !s.connOk then .error .connection
  else if (findTransfer s transferId).isNone then .error .fkViolation
  else if hasSignaturePair s transferId sig.relayerAddress then
    .error .duplicateKey
  else
    let rows := s.signatures ++ [⟨transferId, sig.relayerAddress, sig.signature⟩]
    .ok { s with signatures := rows }

end SignatureRepository

namespace StateManager

/-- `StateManager.RecordTransfer` (internal/models): delegates to
`TransferRepository.Create`. -/
def recordTransfer (s : Store) (t : Transfer) : Except RepoError Store :=
  TransferRepository.create s t

/-- `StateManager.UpdateTransferStatus` (internal/models): delegates to
`TransferRepository.UpdateStatus`. -/
def updateTransferStatus (s : Store) (id : String) (st : TransferStatus) :
    Except RepoError Store :=
  TransferRepository.updateStatus s id st

/-- `StateManager.MarkTransferComplete` (internal/models): first
`UpdateDestinationTxHash`, then `UpdateStatus` to `completed`. -/
def markTransferComplete (s : Store) (id : String) (destinationTxHash : String) :
    Except RepoError Store :=
  match TransferRepository.updateDestinationTxHash s id destinationTxHash with
  | .error e => .error e
  | .ok s1 => TransferRepository.updateStatus s1 id .completed

/-- `StateManager.MarkTransferForReview` (internal/models): delegates to
`TransferRepository.MarkForReview`. -/
def markTransferForReview (s : Store) (id : String) (reason : String) :
    Except RepoError Store :=
  TransferRepository.markForReview s id reason

/-- `StateManager.IsTransferProcessed` (internal/models): `GetByID`; on
any error it returns `(false, nil)`, otherwise
`(status == completed || status == failed, nil)`.  The pair mirrors the
Go `(bool, error)` return. -/
def isTransferProcessed (s : Store) (id : String) : Bool × Option RepoError :=
  match TransferRepository.getByID s id with
  | .error _ => (false, none)
  | .ok t => (t.status == .completed || t.status == .failed, none)

/-- `StateManager.RecordSignature` (internal/models): delegates to
`SignatureRepository.Create`. -/
def recordSignature (s : Store) (transferId : String) (sig : SignatureInput) :
    Except RepoError Store :=
  SignatureRepository.create s transferId sig

end StateManager

/-- `types.ChainConfig` (pkg/types), restricted to the fields the watcher
and validator consult.  `requiredConfirmations` is the per-chain
configured confirmation depth. -/
structure ChainConfig where
  chainId : Nat
  bridgeContract : String
  requiredConfirmations : Nat
  blockTimeMs : Nat
deriving DecidableEq, Repr

/-- A bridge event as `types.Event` carries it: the fields
`EthereumAdapter.ValidateEvent` and the poll loop look at. -/
structure Event where
  txHash : String
  blockNumber : Nat
  transferId : String
deriving DecidableEq, Repr

/-- An EVM log entry as the adapter sees it: the emitting contract
address, the transaction hash, and the transfer id its topics carry
(what `parseTokensLockedEvent` extracts as `TransferID`). -/
structure EthLog where
  address : String
  txHash : String
  transferId : String
deriving DecidableEq, Repr

/-- A transaction receipt: status (1 = success), block number, logs. -/
structure Receipt where
  status : Nat
  blockNumber : Nat
  logs : List EthLog
deriving DecidableEq, Repr

/-- Error outcomes of `EthereumAdapter.ValidateEvent` and of the poll
loop, classifying the wrapped error strings of the source. -/
inductive AdapterError where
  | receiptFetchFailed
  | transactionFailed
  | blockNumberMismatch
  | eventNotFound
  | reorgDetected
deriving DecidableEq, Repr

namespace EthereumAdapter

/-- `EthereumAdapter.validateEventLog` (internal/adapters): "Basic
validation - check if transaction hash matches".  It compares the log's
transaction hash with the event's and nothing else. -/
def validateEventLog (log : EthLog) (event : Event) : Bool :=
  log.txHash == event.txHash

/-- `EthereumAdapter.ValidateEvent` (internal/adapters): re-fetches the
receipt for `event.TxHash` (here: the fetch outcome is passed in),
requires tx success, a matching block number, and some log emitted by the
configured bridge contract that passes `validateEventLog`. -/
def validateEvent (fetchReceipt : Except AdapterError Receipt)
    (bridgeContract : String) (event : Event) : Except AdapterError Unit :=
  match fetchReceipt with
  | .error _ => .error .receiptFetchFailed
  | .ok receipt =>
    if receipt.status ≠ 1 then .error .transactionFailed
    else if receipt.blockNumber ≠ event.blockNumber then .error .blockNumberMismatch
    else if receipt.logs.any (fun log =>
        log.address == bridgeContract && validateEventLog log event) then .ok ()
    else .error .eventNotFound

/-- A raw log as the poll loop's `FilterLogs` returns it: its block
number, and the event `parseLogToEvent` yields for it (`none` when
parsing fails — the source logs and skips such a log). -/
structure RawLog where
  blockNumber : Nat
  parses : Option Event
deriving DecidableEq, Repr

/-- `EthereumAdapter.detectReorganization` (internal/adapters): errors
when a previously processed block can no longer be fetched (`lastBlock`
of zero means nothing was processed yet, so nothing is checked). -/
def detectReorganization (blockExists : Nat → Bool) (lastBlock : Nat) : Bool :=
  lastBlock == 0 || blockExists lastBlock

/-- `EthereumAdapter.fetchAndProcessEvents` (internal/adapters): after the
reorg check, fetches the logs in `[lastBlock+1, currentBlock]` and emits
every event that parses, returning the emitted events and the new
`lastBlock`.  The adapter's `cfg` (including
`cfg.requiredConfirmations`) is in scope, but the source method never
consults it: no confirmation depth is imposed on the emitted events. -/
def fetchAndProcessEvents (cfg : ChainConfig) (lastBlock currentBlock : Nat)
    (blockExists : Nat → Bool) (chainLogs : List RawLog) :
    Except AdapterError (List Event × Nat) :=
  if !detectReorganization blockExists lastBlock then .error .reorgDetected
  else if lastBlock + 1 > currentBlock then .ok ([], lastBlock)
  else
    let inRange := chainLogs.filter (fun l =>
      lastBlock + 1 ≤ l.blockNumber && l.blockNumber ≤ currentBlock)
    .ok (inRange.filterMap (fun l => l.parses), currentBlock)

end EthereumAdapter

/-- One element of the `bytes[] calldata signatures` array of
`EthereumBridge._verifySignatures`, abstracted over ECDSA: `length` is the
byte length of the blob, and `recovered` the address
`ethSignedMessageHash.recover` yields for it over the call's canonical
message hash. -/
structure SolSignature where
  length : Nat
  recovered : String
deriving DecidableEq, Repr

/-- Revert reasons of `EthereumBridge._verifySignatures`. -/
inductive SolError where
  | invalidSignatureLength
  | insufficientSignatures
deriving DecidableEq, Repr

namespace EthereumBridge

/-- The signature loop of `_verifySignatures`
(contracts/contracts/EthereumBridge.sol): walks the array, reverts on a
blob whose length is not 65, recovers the signer, and appends it to the
`signers` accumulator when it holds `RELAYER_ROLE` (`isRelayer`) and was
not already counted. -/
def verifySignaturesLoop (isRelayer : String → Bool)
    (sigs : List SolSignature) (signers : List String) :
    Except SolError (List String) :=
  match sigs with
  | [] => .ok signers
  | sig :: rest =>
    if sig.length ≠ 65 then .error .invalidSignatureLength
    else if isRelayer sig.recovered && !(signers.contains sig.recovered) then
      verifySignaturesLoop isRelayer rest (signers ++ [sig.recovered])
    else verifySignaturesLoop isRelayer rest signers

/-- `EthereumBridge._verifySignatures`: runs the loop from an empty
accumulator and reverts with `InsufficientSignatures` when fewer than
`requiredSignatures` distinct authorized signers were counted. -/
def verifySignatures (isRelayer : String → Bool) (requiredSignatures : Nat)
    (sigs : List SolSignature) : Except SolError Unit :=
  match verifySignaturesLoop isRelayer sigs [] with
  | .error e => .error e
  | .ok signers =>
    if signers.length < requiredSignatures then .error .insufficientSignatures
    else .ok ()

end EthereumBridge

/-- Error outcome of `Keeper.ValidateSignatures`. -/
inductive KeeperError where
  | insufficientSignatures
deriving DecidableEq, Repr

namespace Keeper

/-- `Keeper.ValidateSignatures` (internal/cosmos keeper): compares the raw
length of the `signatures` slice with `params.SignatureThreshold` and
succeeds whenever `len(signatures) >= threshold`.  The body's own TODO
comment records that reconstructing the signed message, verifying each
signature against the relayer's key, and de-duplicating signers are not
implemented. -/
def validateSignatures (signatureThreshold : Nat) (signatures : List String) :
    Except KeeperError Unit :=
  if signatures.length < signatureThreshold then .error .insufficientSignatures
  else .ok ()

end Keeper

/-- The distinct authorized signers among a list of recovered signer
addresses: what the specification requires a threshold check to count. -/
def distinctAuthorizedSigners (isRelayer : String → Bool)
    (signers : List String) : List String :=
  (signers.filter isRelayer).dedup

/-!
## `types.BigInt` serialization (pkg/types)

`BigInt` wraps a nullable `*big.Int`.  `MarshalJSON` emits the value's
exact base-10 representation as a JSON string (`json.Marshal(b.String())`,
`"0"` for a nil pointer); `UnmarshalJSON` parses a JSON string with
`big.Int.SetString(s, 10)`.  `Value`/`Scan` use the same decimal strings
without the JSON quoting.  Strings are modelled as `List Char`; the
decimal conversion mirrors Go's repeated division by the base. -/

/-- `types.BigInt`: a nullable arbitrary-precision integer. -/
structure BigInt where
  int : Option Int
deriving DecidableEq, Repr

/-- The character for a decimal digit (the inverse of `digitOfChar`). -/
def charOfDigit : Nat → Char
  | 0 => '0'
  | 1 => '1'
  | 2 => '2'
  | 3 => '3'
  | 4 => '4'
  | 5 => '5'
  | 6 => '6'
  | 7 => '7'
  | 8 => '8'
  | 9 => '9'
  | _ => '?'

/-- The decimal digit a character denotes. -/
def digitOfChar (c : Char) : Nat :=
  c.toNat - 48

/-- Whether a character is a decimal digit. -/
def isDigitChar (c : Char) : Bool :=
  48 ≤ c.toNat && c.toNat ≤ 57

/-- Little-endian base-10 digits of `n` by repeated division, with a fuel
argument bounding the recursion (any fuel `≥ n` is exact). -/
def natDigitsAux : Nat → Nat → List Nat
  | 0, _ => []
  | fuel + 1, n => if n = 0 then [] else n % 10 :: natDigitsAux fuel (n / 10)

/-- Little-endian base-10 digits of `n` (empty exactly for `n = 0`). -/
def natDigits (n : Nat) : List Nat :=
  natDigitsAux n n

/-- The value of a little-endian base-10 digit list. -/
def ofDigits10 : List Nat → Nat
  | [] => 0
  | d :: ds => d + 10 * ofDigits10 ds

/-- Go `big.Int.String` restricted to naturals: the big-endian decimal
digit string, `"0"` for zero. -/
def natToDecimal (n : Nat) : List Char :=
  if n = 0 then ['0'] else ((natDigits n).map charOfDigit).reverse

/-- Go `big.Int.String`: a leading `'-'` for negative values, then the
decimal digits of the absolute value. -/
def intToDecimal (i : Int) : List Char :=
  if i < 0 then '-' :: natToDecimal i.natAbs else natToDecimal i.natAbs

/-- The digits part of `big.Int.SetString(s, 10)`: a non-empty run of
decimal digit characters, read big-endian. -/
def parseDigits (l : List Char) : Option Nat :=
  if l = [] then none
  else if l.all isDigitChar then
    some (ofDigits10 ((l.map digitOfChar).reverse))
  else none

/-- `big.Int.SetString(s, 10)`: an optional sign character followed by a
non-empty digit run; everything else fails. -/
def parseDecimal (l : List Char) : Option Int :=
  match l with
  | [] => none
  | c :: rest =>
    if c = '-' then (parseDigits rest).map (fun n => -(n : Int))
    else if c = '+' then (parseDigits rest).map (fun n => (n : Int))
    else (parseDigits (c :: rest)).map (fun n => (n : Int))

/-- `json.Marshal` of a decimal string: surrounding quotes (decimal
strings contain nothing that JSON escapes). -/
def jsonQuote (s : List Char) : List Char :=
  '"' :: (s ++ ['"'])

/-- `json.Unmarshal` of a JSON string into a Go `string`: strips the
surrounding quotes. -/
def jsonUnquote (l : List Char) : Option (List Char) :=
  match l with
  | '"' :: rest =>
    if rest.getLast? = some '"' then some rest.dropLast else none
  | _ => none

/-- `BigInt.MarshalJSON` (pkg/types): `json.Marshal(b.String())`, with
`"0"` for a nil inner pointer. -/
def BigInt.marshalJSON (b : BigInt) : List Char :=
  match b.int with
  | none => jsonQuote ['0']
  | some i => jsonQuote (intToDecimal i)

/-- `BigInt.UnmarshalJSON` (pkg/types): unmarshal a JSON string, then
`big.Int.SetString(s, 10)`; either failure is an error (`none`). -/
def BigInt.unmarshalJSON (data : List Char) : Option BigInt :=
  match jsonUnquote data with
  | none => none
  | some s => (parseDecimal s).map (fun i => ⟨some i⟩)

/-- A `database/sql` driver value as `BigInt.Scan` switches on it: SQL
NULL, a string, a byte slice, or anything else. -/
inductive SqlValue where
  | null
  | str (s : List Char)
  | bytes (s : List Char)
  | other
deriving DecidableEq

/-- `BigInt.Value` (pkg/types): the decimal string `b.String()`, `"0"`
for a nil inner pointer. -/
def BigInt.value (b : BigInt) : SqlValue :=
  match b.int with
  | none => .str ['0']
  | some i => .str (intToDecimal i)

/-- `BigInt.Scan` (pkg/types): NULL scans to zero; strings and byte
slices are parsed with `big.Int.SetString(s, 10)`; other driver types are
an error. -/
def BigInt.scan (v : SqlValue) : Option BigInt :=
  match v with
  | .null => some ⟨some 0⟩
  | .str s => (parseDecimal s).map (fun i => ⟨some i⟩)
  | .bytes s => (parseDecimal s).map (fun i => ⟨some i⟩)
  | .other => none

/-!
## Round-trip lemmas for the decimal serialization -/

theorem ofDigits10_natDigitsAux (fuel n : Nat) (h : n ≤ fuel) :
    ofDigits10 (natDigitsAux fuel n) = n := by
  induction fuel generalizing n with
  | zero => interval_cases n; rfl
  | succ fuel ih =>
    by_cases hn : n = 0
    · subst hn; simp [natDigitsAux, ofDigits10]
    · have hdiv : n / 10 ≤ fuel := by
        have h1 : n / 10 < n := Nat.div_lt_self (Nat.pos_of_ne_zero hn) (by omega)
        omega
      simp only [natDigitsAux, hn, if_false, ofDigits10, ih _ hdiv]
      omega

theorem ofDigits10_natDigits (n : Nat) : ofDigits10 (natDigits n) = n :=
  ofDigits10_natDigitsAux n n le_rfl

theorem natDigitsAux_mem_lt (fuel n d : Nat) (h : d ∈ natDigitsAux fuel n) :
    d < 10 := by
  induction fuel generalizing n with
  | zero => simp [natDigitsAux] at h
  | succ fuel ih =>
    by_cases hn : n = 0
    · subst hn; simp [natDigitsAux] at h
    · simp only [natDigitsAux, hn, if_false, List.mem_cons] at h
      rcases h with h | h
      · subst h; exact Nat.mod_lt _ (by omega)
      · exact ih _ h

theorem natDigits_mem_lt (n d : Nat) (h : d ∈ natDigits n) : d < 10 :=
  natDigitsAux_mem_lt n n d h

theorem natDigits_ne_nil (n : Nat) (h : n ≠ 0) : natDigits n ≠ [] := by
  cases n with
  | zero => exact absurd rfl h
  | succ m =>
    simp only [natDigits, natDigitsAux]
    simp

theorem digitOfChar_charOfDigit (d : Nat) (h : d < 10) :
    digitOfChar (charOfDigit d) = d := by
  interval_cases d <;> rfl

theorem isDigitChar_charOfDigit (d : Nat) (h : d < 10) :
    isDigitChar (charOfDigit d) = true := by
  interval_cases d <;> rfl

theorem mem_natToDecimal_isDigit (n : Nat) (c : Char)
    (h : c ∈ natToDecimal n) : isDigitChar c = true := by
  by_cases hn : n = 0
  · subst hn
    rw [show natToDecimal 0 = ['0'] from rfl, List.mem_singleton] at h
    subst h; rfl
  · simp only [natToDecimal, if_neg hn, List.mem_reverse, List.mem_map] at h
    obtain ⟨d, hd, rfl⟩ := h
    exact isDigitChar_charOfDigit d (natDigits_mem_lt n d hd)

theorem isDigitChar_ne_minus (c : Char) (h : isDigitChar c = true) :
    c ≠ '-' := by
  intro hc; subst hc; exact absurd h (by decide)

theorem isDigitChar_ne_plus (c : Char) (h : isDigitChar c = true) :
    c ≠ '+' := by
  intro hc; subst hc; exact absurd h (by decide)

theorem parseDigits_natToDecimal (n : Nat) :
    parseDigits (natToDecimal n) = some n := by
  by_cases hn : n = 0
  · subst hn; rfl
  · have hne : natToDecimal n ≠ [] := by
      simp only [natToDecimal, if_neg hn]
      simpa using natDigits_ne_nil n hn
    have hall : (natToDecimal n).all isDigitChar = true := by
      rw [List.all_eq_true]
      intro c hc
      exact mem_natToDecimal_isDigit n c hc
    have hmap : (natDigits n).map (digitOfChar ∘ charOfDigit) = natDigits n := by
      refine List.map_congr_left ?_ |>.trans (List.map_id _)
      intro d hd
      exact digitOfChar_charOfDigit d (natDigits_mem_lt n d hd)
    have hval : ofDigits10 (((natToDecimal n).map digitOfChar).reverse) = n := by
      simp only [natToDecimal, if_neg hn, List.map_reverse,
        List.reverse_reverse, List.map_map]
      rw [hmap, ofDigits10_natDigits]
    simp [parseDigits, hne, hall, hval]

theorem natToDecimal_head_digit (n : Nat) :
    ∃ c rest, natToDecimal n = c :: rest ∧ isDigitChar c = true := by
  rcases hl : natToDecimal n with _ | ⟨c, rest⟩
  · exfalso
    by_cases hn : n = 0
    · subst hn; simp [natToDecimal] at hl
    · exact absurd hl (by
        simp only [natToDecimal, if_neg hn]
        simpa using natDigits_ne_nil n hn)
  · exact ⟨c, rest, rfl, mem_natToDecimal_isDigit n c (by rw [hl]; simp)⟩

theorem parseDecimal_intToDecimal (i : Int) :
    parseDecimal (intToDecimal i) = some i := by
  by_cases hi : i < 0
  · rw [intToDecimal, if_pos hi]
    simp only [parseDecimal, parseDigits_natToDecimal]
    have hval : -((i.natAbs : Nat) : Int) = i := by omega
    exact congrArg some hval
  · rw [intToDecimal, if_neg hi]
    obtain ⟨c, rest, hcr, hdig⟩ := natToDecimal_head_digit i.natAbs
    rw [hcr]
    simp only [parseDecimal, if_neg (isDigitChar_ne_minus c hdig),
      if_neg (isDigitChar_ne_plus c hdig)]
    rw [← hcr, parseDigits_natToDecimal]
    have hval : ((i.natAbs : Nat) : Int) = i := by omega
    exact congrArg some hval

theorem jsonUnquote_jsonQuote (s : List Char) :
    jsonUnquote (jsonQuote s) = some s := by
  simp only [jsonQuote, jsonUnquote]
  rw [List.getLast?_concat]
  simp

/-!
## Helper lemmas about the store's row updates -/

/-- How `find?` by id interacts with an `UPDATE ... WHERE id = $n` row
map, for any per-row update `u` that does not change the id. -/
theorem find?_updRows (l : List Transfer) (id : String)
    (u : Transfer → Transfer) (hu : ∀ t, (u t).id = t.id) :
    (l.map (fun t => if t.id == id then u t else t)).find? (fun t => t.id == id)
      = (l.find? (fun t => t.id == id)).map u := by
  induction l with
  | nil => rfl
  | cons a l ih =>
    by_cases haeq : a.id = id
    · have ha : (a.id == id) = true := by simp [haeq]
      have hua : ((u a).id == id) = true := by rw [hu]; exact ha
      rw [List.map_cons, if_pos ha]
      simp only [List.find?_cons, hua, ha, Option.map_some']
    · have ha : (a.id == id) = false := by simp [haeq]
      rw [List.map_cons, if_neg (by simp [ha])]
      simp only [List.find?_cons, ha]
      exact ih

/-- A sample transfer row passing `Transfer.Validate`, used to build the
concrete stores of the witnesses and counterexamples. -/
def mkTransfer (id : String) (st : TransferStatus) : Transfer :=
  { id := id
    sourceChain := 1
    destinationChain := 137
    token := "0xA0b86a33E6441E6C7D3E4C2C4C6C6C6C6C6C6C6C"
    amount := some 1000000000000000000
    sender := "0x742d35Cc6634C0532925a3b8D4C9db96590C4C4C"
    recipient := "0x8ba1f109551bD432803012645Hac136c22C4C4C"
    status := st
    sourceTxHash := "0xsrc"
    destinationTxHash := ""
    blockNumber := 100
    confirmations := 0
    fee := none }

/-!
## Claim theorems -/

/-- C2: `RecordTransfer` / `TransferRepository.Create` is insert-only:
when a row with the transfer's id already exists, a second `Create` of a
(valid) transfer with the same id hits the primary-key constraint and
returns the duplicate-key error, producing no new store — so repeated
deliveries of one event id leave at most the one existing row. -/
theorem recordTransfer_duplicate_id_errors (s : Store) (t t0 : Transfer)
    (hconn : s.connOk = true) (hval : t.validate = .ok ())
    (hex : findTransfer s t.id = some t0) :
    StateManager.recordTransfer s t = .error .duplicateKey := by
  simp [StateManager.recordTransfer, TransferRepository.create, hval, hconn, hex]

/-- Witness for C2: a store already holding id `"0xdup"` rejects a second
valid transfer with that id. -/
theorem recordTransfer_duplicate_id_errors_witness :
    StateManager.recordTransfer
      { transfers := [mkTransfer "0xdup" .pending], signatures := [], connOk := true }
      (mkTransfer "0xdup" .pending) = .error .duplicateKey :=
  recordTransfer_duplicate_id_errors _ _ (mkTransfer "0xdup" .pending)
    rfl rfl (by decide)

/-- C6: for a stored transfer, `IsTransferProcessed` answers `true`
exactly when the status is `completed` or `failed`. -/
theorem isTransferProcessed_terminal_iff (s : Store) (id : String) (t : Transfer)
    (hconn : s.connOk = true) (hfind : findTransfer s id = some t) :
    (StateManager.isTransferProcessed s id).fst = true ↔
      (t.status = .completed ∨ t.status = .failed) := by
  have hg : TransferRepository.getByID s id = .ok t := by
    simp [TransferRepository.getByID, hconn, hfind]
  simp [StateManager.isTransferProcessed, hg]

/-- Witness for C6: a `completed` transfer is reported processed. -/
theorem isTransferProcessed_terminal_iff_witness :
    ((StateManager.isTransferProcessed
        { transfers := [mkTransfer "0xc6" .completed], signatures := [], connOk := true }
        "0xc6").fst = true ↔
      ((mkTransfer "0xc6" .completed).status = .completed ∨
        (mkTransfer "0xc6" .completed).status = .failed)) :=
  isTransferProcessed_terminal_iff _ "0xc6" (mkTransfer "0xc6" .completed)
    rfl (by decide)

/-- C10: whenever the transfer lookup fails — the id is absent, or the
database itself errors — `IsTransferProcessed` returns `(false, nil)`,
never propagating the error. -/
theorem isTransferProcessed_swallows_errors (s : Store) (id : String)
    (e : RepoError) (herr : TransferRepository.getByID s id = .error e) :
    StateManager.isTransferProcessed s id = (false, none) := by
  simp [StateManager.isTransferProcessed, herr]

/-- Witness for C10: with the database connection down the lookup errors,
and the caller still sees `(false, nil)`. -/
theorem isTransferProcessed_swallows_errors_witness :
    StateManager.isTransferProcessed
      { transfers := [mkTransfer "0xc10" .completed], signatures := [], connOk := false }
      "0xc10" = (false, none) :=
  isTransferProcessed_swallows_errors _ "0xc10" .connection rfl

/-- C9: serialization round-trips exactly.  For every `BigInt` whose
inner pointer holds the integer `i` — of any magnitude —
`UnmarshalJSON ∘ MarshalJSON` and `Scan ∘ Value` each restore precisely
`i`: the decimal-string encoding loses no precision. -/
theorem bigInt_serialization_roundtrip (b : BigInt) (i : Int)
    (h : b.int = some i) :
    BigInt.unmarshalJSON (BigInt.marshalJSON b) = some ⟨some i⟩ ∧
    BigInt.scan (BigInt.value b) = some ⟨some i⟩ := by
  constructor
  · simp only [BigInt.marshalJSON, h, BigInt.unmarshalJSON,
      jsonUnquote_jsonQuote, parseDecimal_intToDecimal, Option.map_some']
  · simp only [BigInt.value, h, BigInt.scan, parseDecimal_intToDecimal,
      Option.map_some']

/-- Witness for C9 at `10^18` (beyond 53-bit float precision). -/
theorem bigInt_serialization_roundtrip_witness :
    BigInt.unmarshalJSON (BigInt.marshalJSON ⟨some (10 ^ 18)⟩)
        = some ⟨some (10 ^ 18)⟩ ∧
    BigInt.scan (BigInt.value ⟨some (10 ^ 18)⟩) = some ⟨some (10 ^ 18)⟩ :=
  bigInt_serialization_roundtrip ⟨some (10 ^ 18)⟩ (10 ^ 18) rfl

/-- C1 (failing code path): `Keeper.ValidateSignatures` accepts any
signature slice whose raw length reaches the threshold.  With threshold
2, two copies of one signature blob — recovering to no authorized
relayer at all, so zero distinct authorized signers — are accepted, while
the claim requires every such set to fail.  (The Solidity
`_verifySignatures` does implement the distinct-authorized count; the
keeper's TODO comment records that its own check is unimplemented.) -/
theorem keeper_threshold_counts_duplicates :
    Keeper.validateSignatures 2 ["c0ffee", "c0ffee"] = .ok () ∧
    distinctAuthorizedSigners (fun _ => false) ["c0ffee", "c0ffee"] = [] := by
  constructor
  · rfl
  · rfl

/-- C3 counterexample: `UpdateStatus` moves a transfer whose stored status
is the terminal `completed` back to `pending` and reports success — the
§4 machine admits no transition out of a terminal state, so the store
operations do not preserve it. -/
theorem updateStatus_escapes_terminal :
    StateManager.updateTransferStatus
        { transfers := [mkTransfer "0xc3" .completed], signatures := [], connOk := true }
        "0xc3" .pending
      = .ok { transfers := [mkTransfer "0xc3" .pending], signatures := [], connOk := true } ∧
    (mkTransfer "0xc3" .completed).status = .completed := by
  constructor
  · rfl
  · rfl

/-- C3 as the code has it: the mutating store operations enforce no
transition relation at all.  For any stored transfer — whatever its
current status, terminal ones included — `UpdateStatus` installs any
requested status, `MarkTransferForReview` installs `under_review`, and
`MarkTransferComplete` installs the destination hash and `completed`;
each fails only on a missing id or a database error. -/
theorem store_ops_enforce_no_state_machine (s : Store) (id : String)
    (t : Transfer) (st : TransferStatus) (reason hash : String)
    (hconn : s.connOk = true) (hfind : findTransfer s id = some t) :
    (∃ s1, StateManager.updateTransferStatus s id st = .ok s1 ∧
      findTransfer s1 id = some { t with status := st }) ∧
    (∃ s2, StateManager.markTransferForReview s id reason = .ok s2 ∧
      findTransfer s2 id = some { t with status := .underReview }) ∧
    (∃ s3, StateManager.markTransferComplete s id hash = .ok s3 ∧
      findTransfer s3 id
        = some { t with destinationTxHash := hash, status := .completed }) := by
  have hfind1 : ∀ st' : TransferStatus,
      findTransfer { s with transfers := TransferRepository.setStatusRows s.transfers id st' } id
        = some { t with status := st' } := by
    intro st'
    have h := find?_updRows s.transfers id
      (fun u => { u with status := st' }) (fun _ => rfl)
    rw [show s.transfers.find? (fun u => u.id == id) = some t from hfind,
      Option.map_some'] at h
    exact h
  have hfindmid : findTransfer { s with transfers := TransferRepository.setHashRows s.transfers id hash } id
      = some { t with destinationTxHash := hash } := by
    have h := find?_updRows s.transfers id
      (fun u => { u with destinationTxHash := hash }) (fun _ => rfl)
    rw [show s.transfers.find? (fun u => u.id == id) = some t from hfind,
      Option.map_some'] at h
    exact h
  refine ⟨⟨_, ?_, hfind1 st⟩, ⟨_, ?_, hfind1 .underReview⟩, ?_⟩
  · simp [StateManager.updateTransferStatus, TransferRepository.updateStatus,
      hconn, hfind]
  · simp [StateManager.markTransferForReview, TransferRepository.markForReview,
      hconn, hfind]
  · have hstep1 : TransferRepository.updateDestinationTxHash s id hash
        = .ok { s with transfers := TransferRepository.setHashRows s.transfers id hash } := by
      simp [TransferRepository.updateDestinationTxHash, hconn, hfind]
    have hstep2 : TransferRepository.updateStatus
        { s with transfers := TransferRepository.setHashRows s.transfers id hash }
        id .completed
        = .ok { s with transfers := TransferRepository.setStatusRows (TransferRepository.setHashRows s.transfers id hash) id .completed } := by
      have hmid : (TransferRepository.setHashRows s.transfers id hash).find? (fun u => u.id == id)
          = some { t with destinationTxHash := hash } := hfindmid
      simp [TransferRepository.updateStatus, findTransfer, hconn, hmid]
    have hfinal := find?_updRows
      (TransferRepository.setHashRows s.transfers id hash)
      id (fun u => { u with status := .completed }) (fun _ => rfl)
    rw [show (TransferRepository.setHashRows s.transfers id hash).find?
          (fun u => u.id == id) = some { t with destinationTxHash := hash } from hfindmid,
      Option.map_some'] at hfinal
    refine ⟨{ s with transfers := TransferRepository.setStatusRows (TransferRepository.setHashRows s.transfers id hash) id .completed }, ?_, ?_⟩
    · simp only [StateManager.markTransferComplete, hstep1]
      exact hstep2
    · exact hfinal

/-- The `signed` transfer of the amended C3's witness. -/
def c3SignedTransfer : Transfer := mkTransfer "0xw3" TransferStatus.signed

/-- The store of the amended C3's witness. -/
def c3WitnessStore : Store :=
  { transfers := [c3SignedTransfer], signatures := [], connOk := true }

/-- Witness for the amended C3 at a concrete `signed` transfer. -/
theorem store_ops_enforce_no_state_machine_witness :
    (∃ s1, StateManager.updateTransferStatus c3WitnessStore "0xw3" .pending = .ok s1 ∧
      findTransfer s1 "0xw3" = some { c3SignedTransfer with status := .pending }) ∧
    (∃ s2, StateManager.markTransferForReview c3WitnessStore "0xw3" "reorg" = .ok s2 ∧
      findTransfer s2 "0xw3" = some { c3SignedTransfer with status := .underReview }) ∧
    (∃ s3, StateManager.markTransferComplete c3WitnessStore "0xw3" "0xdst" = .ok s3 ∧
      findTransfer s3 "0xw3"
        = some { c3SignedTransfer with destinationTxHash := "0xdst", status := .completed }) :=
  store_ops_enforce_no_state_machine c3WitnessStore "0xw3" c3SignedTransfer
    .pending "reorg" "0xdst" rfl (by decide)

/-- C4 counterexample: the claim says the move to `executing` succeeds
only from a stored status of `signed` and reports failure otherwise.
Here the stored status is `pending` — not `signed` — yet `UpdateStatus`
succeeds and installs `executing`. -/
theorem updateStatus_executing_without_signed :
    StateManager.updateTransferStatus
        { transfers := [mkTransfer "0xc4" .pending], signatures := [], connOk := true }
        "0xc4" .executing
      = .ok { transfers := [mkTransfer "0xc4" .executing], signatures := [], connOk := true } ∧
    (mkTransfer "0xc4" .pending).status ≠ .signed := by
  constructor
  · rfl
  · decide

/-- C4 as the code has it: the Signed→Executing move is the same
unconditional `UpdateStatus`, with no compare-and-swap on the current
status.  For any stored transfer it succeeds whatever the status is, and
a second racing claimer's identical update also succeeds — no caller
ever observes the claimed conditional failure. -/
theorem updateStatus_executing_no_cas (s : Store) (id : String) (t : Transfer)
    (hconn : s.connOk = true) (hfind : findTransfer s id = some t) :
    ∃ s1, StateManager.updateTransferStatus s id .executing = .ok s1 ∧
      findTransfer s1 id = some { t with status := .executing } ∧
      ∃ s2, StateManager.updateTransferStatus s1 id .executing = .ok s2 := by
  have hfind1 : findTransfer { s with transfers := TransferRepository.setStatusRows s.transfers id .executing } id
      = some { t with status := .executing } := by
    have h := find?_updRows s.transfers id
      (fun u => { u with status := TransferStatus.executing }) (fun _ => rfl)
    rw [show s.transfers.find? (fun u => u.id == id) = some t from hfind,
      Option.map_some'] at h
    exact h
  refine ⟨{ s with transfers := TransferRepository.setStatusRows s.transfers id .executing }, ?_, hfind1, ?_⟩
  · simp [StateManager.updateTransferStatus, TransferRepository.updateStatus,
      hconn, hfind]
  · have h1 : (TransferRepository.setStatusRows s.transfers id .executing).find? (fun u => u.id == id)
        = some { t with status := TransferStatus.executing } := hfind1
    refine ⟨{ s with transfers := TransferRepository.setStatusRows (TransferRepository.setStatusRows s.transfers id .executing) id .executing }, ?_⟩
    simp [StateManager.updateTransferStatus, TransferRepository.updateStatus,
      findTransfer, hconn, h1]

/-- Witness for the amended C4: two back-to-back Executing claims on the
same `signed` transfer both succeed. -/
theorem updateStatus_executing_no_cas_witness :
    ∃ s1, StateManager.updateTransferStatus
        { transfers := [mkTransfer "0xw4" .signed], signatures := [], connOk := true }
        "0xw4" .executing = .ok s1 ∧
      findTransfer s1 "0xw4" = some { mkTransfer "0xw4" .signed with status := .executing } ∧
      ∃ s2, StateManager.updateTransferStatus s1 "0xw4" .executing = .ok s2 :=
  updateStatus_executing_no_cas _ "0xw4" (mkTransfer "0xw4" .signed)
    rfl (by decide)

/-- C5 counterexample: the claim says a duplicate
`(transferId, relayerAddress)` signature insert is a success-returning
no-op.  The repository has no conflict clause: the second insert hits
`uq_signatures_transfer_relayer` and `RecordSignature` returns an error,
not success. -/
theorem recordSignature_duplicate_is_error :
    StateManager.recordSignature
        { transfers := [mkTransfer "0xc5" .confirming],
          signatures := [⟨"0xc5", "0xrelayer1", [1, 2, 3]⟩], connOk := true }
        "0xc5" ⟨"0xrelayer1", [1, 2, 3]⟩
      = .error .duplicateKey := by
  rfl

/-- C5 as the code has it: replaying a signature for a pair that already
holds a row leaves the signature set unchanged (the failed insert
mutates nothing) but surfaces the unique-constraint error to the caller
instead of succeeding. -/
theorem recordSignature_duplicate_unique_violation (s : Store)
    (transferId : String) (sig : SignatureInput) (t0 : Transfer)
    (haddr : ¬ sig.relayerAddress = "") (hbytes : ¬ sig.signature = [])
    (hconn : s.connOk = true) (hfk : findTransfer s transferId = some t0)
    (hdup : hasSignaturePair s transferId sig.relayerAddress = true) :
    StateManager.recordSignature s transferId sig = .error .duplicateKey := by
  simp [StateManager.recordSignature, SignatureRepository.create,
    haddr, hbytes, hconn, hfk, hdup]

/-- Witness for the amended C5 at a concrete duplicated pair. -/
theorem recordSignature_duplicate_unique_violation_witness :
    StateManager.recordSignature
        { transfers := [mkTransfer "0xw5" .confirming],
          signatures := [⟨"0xw5", "0xrelayer9", [7]⟩], connOk := true }
        "0xw5" ⟨"0xrelayer9", [9, 9]⟩
      = .error .duplicateKey :=
  recordSignature_duplicate_unique_violation _ "0xw5" ⟨"0xrelayer9", [9, 9]⟩
    (mkTransfer "0xw5" .confirming) (by decide) (by decide) rfl (by decide) (by decide)

/-- C7 counterexample: `ValidateEvent` accepts an event whose transfer id
(`"0xforged"`) matches no transfer id carried by any log of the receipt
(the only log carries `"0xreal"`): the transaction succeeded, the block
number matches, and a bridge-emitted log has the event's tx hash —
`validateEventLog` compares only the tx hash, so no recomputed transfer
id is ever checked against the event's. -/
theorem validateEvent_ignores_transferId :
    EthereumAdapter.validateEvent
        (.ok { status := 1, blockNumber := 5,
               logs := [{ address := "0xbridge", txHash := "0xabc", transferId := "0xreal" }] })
        "0xbridge"
        { txHash := "0xabc", blockNumber := 5, transferId := "0xforged" }
      = .ok () ∧
    ¬ ("0xforged" : String) = "0xreal" := by
  constructor
  · rfl
  · decide

/-- C7 as the code has it: `ValidateEvent` accepts exactly when the
re-fetched receipt shows a successful transaction, the receipt's block
number equals the event's, and some log of the receipt was emitted by
the configured bridge contract with the event's transaction hash.  The
transfer id is not recomputed or compared. -/
theorem validateEvent_ok_iff (receipt : Receipt) (bridgeContract : String)
    (event : Event) :
    EthereumAdapter.validateEvent (.ok receipt) bridgeContract event = .ok () ↔
      (receipt.status = 1 ∧ receipt.blockNumber = event.blockNumber ∧
        ∃ log ∈ receipt.logs,
          log.address = bridgeContract ∧ log.txHash = event.txHash) := by
  simp only [EthereumAdapter.validateEvent, EthereumAdapter.validateEventLog]
  split_ifs with h1 h2 h3
  · simp [h1]
  · simp [h2]
  · have e1 : receipt.status = 1 := by omega
    have e2 : receipt.blockNumber = event.blockNumber := by omega
    simp only [List.any_eq_true, Bool.and_eq_true, beq_iff_eq] at h3
    constructor
    · intro _
      exact ⟨e1, e2, h3⟩
    · intro _
      rfl
  · have e1 : receipt.status = 1 := by omega
    have e2 : receipt.blockNumber = event.blockNumber := by omega
    simp only [List.any_eq_true, Bool.and_eq_true, beq_iff_eq] at h3
    constructor
    · intro hcontra
      exact absurd hcontra (by simp)
    · intro hr
      exact absurd hr.2.2 h3

/-- The Ethereum-mainnet chain configuration as the schema's defaults
install it: 12 required confirmations. -/
def ethereumMainnetConfig : ChainConfig :=
  { chainId := 1
    bridgeContract := "0x0000000000000000000000000000000000000000"
    requiredConfirmations := 12
    blockTimeMs := 12000 }

/-- The event of C8's counterexample: emitted in block 5. -/
def c8Event : Event :=
  { txHash := "0xe8", blockNumber := 5, transferId := "0xt8" }

/-- C8 counterexample: polling with head = 5 over a chain whose only log
sits in block 5 emits that event immediately — head − eventBlock = 0,
far below the chain's 12 required confirmations.  The poll loop applies
no confirmation gate at all. -/
theorem fetchAndProcessEvents_no_confirmation_gate :
    EthereumAdapter.fetchAndProcessEvents ethereumMainnetConfig 0 5
        (fun _ => true) [{ blockNumber := 5, parses := some c8Event }]
      = .ok ([c8Event], 5) ∧
    5 - c8Event.blockNumber < ethereumMainnetConfig.requiredConfirmations := by
  constructor
  · rfl
  · decide

/-- C8 as the code has it: under a clean reorg check and at least one new
block, `fetchAndProcessEvents` emits exactly the parseable events whose
block lies in `[lastProcessed+1, head]` — every such event, regardless of
how few confirmations it has; `requiredConfirmations` never constrains
the emission. -/
theorem fetchAndProcessEvents_emits_all_in_range (cfg : ChainConfig)
    (lastBlock currentBlock : Nat) (blockExists : Nat → Bool)
    (chainLogs : List EthereumAdapter.RawLog)
    (hreorg : EthereumAdapter.detectReorganization blockExists lastBlock = true)
    (hrange : lastBlock + 1 ≤ currentBlock) :
    ∃ events,
      EthereumAdapter.fetchAndProcessEvents cfg lastBlock currentBlock
          blockExists chainLogs = .ok (events, currentBlock) ∧
      ∀ e, e ∈ events ↔ ∃ l ∈ chainLogs, l.parses = some e ∧
        lastBlock + 1 ≤ l.blockNumber ∧ l.blockNumber ≤ currentBlock := by
  have hnot : ¬ (lastBlock + 1 > currentBlock) := by omega
  refine ⟨(chainLogs.filter (fun l =>
      lastBlock + 1 ≤ l.blockNumber && l.blockNumber ≤ currentBlock)).filterMap
      (fun l => l.parses), ?_, ?_⟩
  · simp [EthereumAdapter.fetchAndProcessEvents, hreorg, hnot]
  · intro e
    simp only [List.mem_filterMap, List.mem_filter, Bool.and_eq_true,
      decide_eq_true_eq]
    constructor
    · rintro ⟨l, ⟨hl, h1, h2⟩, hp⟩
      exact ⟨l, hl, hp, h1, h2⟩
    · rintro ⟨l, hl, hp, h1, h2⟩
      exact ⟨l, ⟨hl, h1, h2⟩, hp⟩

/-- Witness for the amended C8: a poll from lastBlock 0 to head 5 over
two logs, one in range and parseable. -/
theorem fetchAndProcessEvents_emits_all_in_range_witness :
    ∃ events,
      EthereumAdapter.fetchAndProcessEvents ethereumMainnetConfig 0 5
          (fun _ => true) [{ blockNumber := 5, parses := some c8Event }]
        = .ok (events, 5) ∧
      ∀ e, e ∈ events ↔
        ∃ l ∈ [({ blockNumber := 5, parses := some c8Event } : EthereumAdapter.RawLog)],
          l.parses = some e ∧ 0 + 1 ≤ l.blockNumber ∧ l.blockNumber ≤ 5 :=
  fetchAndProcessEvents_emits_all_in_range ethereumMainnetConfig 0 5
    (fun _ => true) [{ blockNumber := 5, parses := some c8Event }]
    rfl (by omega)

/-!
## The Solidity side of the threshold check

Unlike the keeper, `EthereumBridge._verifySignatures` does count only
pairwise-distinct authorized signers; the following records that when it
returns without reverting, at least `requiredSignatures` distinct
authorized signers really are present among the recovered addresses. -/

/-- Invariant of the `_verifySignatures` loop: starting from a
duplicate-free accumulator, the final accumulator is duplicate-free and
each of its members either was already accumulated or is an authorized
signer recovered from the processed signatures. -/
theorem verifySignaturesLoop_ok (isRelayer : String → Bool)
    (sigs : List SolSignature) (acc res : List String) (hacc : acc.Nodup)
    (h : EthereumBridge.verifySignaturesLoop isRelayer sigs acc = .ok res) :
    res.Nodup ∧ ∀ a ∈ res,
      a ∈ acc ∨ (isRelayer a = true ∧ a ∈ sigs.map SolSignature.recovered) := by
  induction sigs generalizing acc with
  | nil =>
    rw [EthereumBridge.verifySignaturesLoop] at h
    cases h
    exact ⟨hacc, fun a ha => .inl ha⟩
  | cons sig rest ih =>
    rw [EthereumBridge.verifySignaturesLoop] at h
    by_cases hlen : sig.length ≠ 65
    · rw [if_pos hlen] at h
      exact absurd h (by simp)
    · rw [if_neg hlen] at h
      by_cases hadd : (isRelayer sig.recovered && !(acc.contains sig.recovered)) = true
      · rw [if_pos hadd] at h
        have hand : isRelayer sig.recovered = true ∧ sig.recovered ∉ acc := by
          simpa using hadd
        have hacc2 : (acc ++ [sig.recovered]).Nodup := by
          simp [List.nodup_append, hacc, hand.2]
        obtain ⟨hnd, hmem⟩ := ih (acc ++ [sig.recovered]) hacc2 h
        refine ⟨hnd, fun a ha => ?_⟩
        rcases hmem a ha with hin | ⟨hrel, hmap⟩
        · rcases List.mem_append.mp hin with h1 | h1
          · exact .inl h1
          · have h1' : a = sig.recovered := by simpa using h1
            subst h1'
            exact .inr ⟨hand.1, by simp⟩
        · exact .inr ⟨hrel, by simp [hmap]⟩
      · rw [if_neg hadd] at h
        obtain ⟨hnd, hmem⟩ := ih acc hacc h
        refine ⟨hnd, fun a ha => ?_⟩
        rcases hmem a ha with hin | ⟨hrel, hmap⟩
        · exact .inl hin
        · exact .inr ⟨hrel, by simp [hmap]⟩

/-- When `_verifySignatures` does not revert, at least
`requiredSignatures` pairwise-distinct authorized signers occur among
the signatures' recovered addresses. -/
theorem verifySignatures_counts_distinct_authorized (isRelayer : String → Bool)
    (required : Nat) (sigs : List SolSignature)
    (h : EthereumBridge.verifySignatures isRelayer required sigs = .ok ()) :
    required ≤ (distinctAuthorizedSigners isRelayer
      (sigs.map SolSignature.recovered)).length := by
  rw [EthereumBridge.verifySignatures] at h
  rcases hloop : EthereumBridge.verifySignaturesLoop isRelayer sigs [] with e | res
  · rw [hloop] at h
    simp at h
  · rw [hloop] at h
    replace h : (if res.length < required then
        (Except.error SolError.insufficientSignatures : Except SolError Unit)
      else Except.ok ()) = Except.ok () := h
    by_cases hlt : res.length < required
    · rw [if_pos hlt] at h
      exact absurd h (by simp)
    · obtain ⟨hnd, hmem⟩ := verifySignaturesLoop_ok isRelayer sigs [] res
        List.nodup_nil hloop
      have hsub : res.toFinset ⊆ (distinctAuthorizedSigners isRelayer
          (sigs.map SolSignature.recovered)).toFinset := by
        intro a ha
        rw [List.mem_toFinset] at ha
        rcases hmem a ha with hin | ⟨hrel, hmap⟩
        · exact absurd hin (List.not_mem_nil a)
        · rw [List.mem_toFinset, distinctAuthorizedSigners, List.mem_dedup,
            List.mem_filter]
          exact ⟨hmap, hrel⟩
      calc required ≤ res.length := by omega
        _ = res.toFinset.card := (List.toFinset_card_of_nodup hnd).symm
        _ ≤ _ := Finset.card_le_card hsub
        _ = _ := List.toFinset_card_of_nodup (List.nodup_dedup _)

end NexusBridge
